import Mathlib

/-!
# Verification of the `ProfileManager` core of `evilbocchi/vrldk`

Shallow embedding of `src/ProfileManager.ts`. The manager mediates access to
an external record store with per-key exclusive-lock "load" and non-locking
"view" calls. We model:

* JS `Map<string, V>` as an association list with unique keys, exposing the
  `get` / `set` / `delete` operations the source uses (a `delete` also
  reports whether an entry was removed, as in JS);
* the manager state: the `loadedProfiles`, `viewedProfiles` and
  `awaitingOperations` maps plus the construction-time `template`;
* each operation (`load`, `view`, `unload`, `save`) as a pure function from
  the manager state (plus an oracle describing the store's responses) to an
  outcome record carrying the returned value, the successor state, and an
  instrumentation log: the number of store calls issued, the sleeps
  performed, the retry warnings emitted, the reconciliations performed and
  the values fired on a pending operation's signal.

Time-unit quantities (retry delays) are modelled as rationals; the delay
arithmetic of the source (`0.1`, doubling, comparison with `0.5`) is exact
at every comparison the code performs, so the rational model agrees with
the engine's float arithmetic on all verdicts used here.

The scheduling model of the source is single-threaded cooperative: an
operation runs atomically between suspension points (store calls, signal
waits, sleeps). Each embedded operation is one such atomic computation;
`view`'s check of the pending map and registration of a new pending entry
happen inside a single function application, with the store consulted only
afterwards, mirroring the absence of any yield point between those lines
of the source.
-/

namespace VRLDK

/-- A record payload: finitely many named fields (modelled with integer
values; the manager is generic in the value type and never inspects it). -/
abbrev Payload := List (String × Int)

/-- First-match field lookup in a payload. -/
def Payload.get (p : Payload) (f : String) : Option Int :=
  match p with
  | [] => none
  | e :: rest => if e.1 = f then some e.2 else Payload.get rest f

/-- Modelled from the spec: `Reconcile(payload, template)` of the external
ProfileService dependency (not part of src/) fills each field present in the
template but absent in the payload with the template default, and never
overwrites an existing payload field. -/
def reconcile (payload : Payload) (template : Payload) : Payload :=
  payload ++ template.filter (fun ft => (Payload.get payload ft.1).isNone)

/-- A record handle returned by the store (a `Profile<T>`); `data` is its
payload. Equality of the embedded values models record identity. -/
structure Profile where
  data : Payload
deriving DecidableEq, Repr

/-- The kind tag of a pending operation (`{type: "load" | "view"}`). -/
inductive OpKind where
  | load
  | view
deriving DecidableEq, Repr

/-- A JS `Map<string, V>`, modelled as an association list. The source only
uses `get`, `set` and `delete`, so any model with the JS semantics of those
three operations is faithful; entry order is never observed. -/
abbrev Map (α : Type) := List (String × α)

/-- `Map.get`: the value stored under `k`, if any. -/
def Map.get {α : Type} (m : Map α) (k : String) : Option α :=
  match m with
  | [] => none
  | e :: rest => if e.1 = k then some e.2 else Map.get rest k

/-- Remove every entry stored under `k` (there is at most one in a
well-formed map). -/
def Map.eraseKey {α : Type} (m : Map α) (k : String) : Map α :=
  match m with
  | [] => []
  | e :: rest =>
    if e.1 = k then Map.eraseKey rest k else e :: Map.eraseKey rest k

/-- Whether an entry is stored under `k`. -/
def Map.hasKey {α : Type} (m : Map α) (k : String) : Bool :=
  match m with
  | [] => false
  | e :: rest => if e.1 = k then true else Map.hasKey rest k

/-- `Map.set`: store `v` under `k`, replacing any existing entry. -/
def Map.set {α : Type} (m : Map α) (k : String) (v : α) : Map α :=
  (k, v) :: Map.eraseKey m k

/-- `Map.delete`: remove the entry under `k`; the boolean reports whether an
entry existed (the return value of JS `Map.prototype.delete`). -/
def Map.del {α : Type} (m : Map α) (k : String) : Map α × Bool :=
  (Map.eraseKey m k, Map.hasKey m k)

/-- The mutable state of one `ProfileManager` instance: the store name and
template fixed at construction, and the three maps. -/
structure ManagerState where
  name : String
  template : Payload
  loadedProfiles : Map Profile
  viewedProfiles : Map Profile
  awaitingOperations : Map OpKind
deriving DecidableEq, Repr

/-- The constructor `new ProfileManager(name, template)`: empty maps. -/
def ProfileManager.mk (name : String) (template : Payload) : ManagerState :=
  ⟨name, template, [], [], []⟩

/-- Outcome of `load`: the returned record, the successor state, and the
instrumentation log (store calls issued, sleeps in order, retry warnings in
order as (key, delay) pairs, number of `Reconcile` applications). -/
structure LoadOut where
  res : Profile
  state : ManagerState
  storeCalls : Nat
  sleeps : List ℚ
  warns : List (String × ℚ)
  reconciles : Nat
deriving DecidableEq, Repr

/-- `load(profileKey, retryTime?)`. The store oracle is `fails`, the number
of consecutive `LoadProfileAsync` failures before one success returning `p`
(the source retries indefinitely; the embedding is indexed by the point at
which the environment lets it succeed, and the recursion is structural on
that index, so the cache check of the source — executed once per recursive
call — appears once in each branch). Mirrors the source: a cached hit
returns immediately with no store contact; on store failure the retry time
is `0.1` when the argument was omitted and twice the argument otherwise, a
warning naming the key and the delay is emitted iff the delay exceeds
`0.5`, the task sleeps for the delay and the call recurses with the new
delay; on success the record is cached and reconciled against the template
(the source caches the mutable record and then calls `Reconcile()` on it,
so the cached and the returned record are both the reconciled one). -/
def ProfileManager.load (s : ManagerState) (k : String) :
    Option ℚ → Nat → Profile → LoadOut
  | _, 0, p =>
    match Map.get s.loadedProfiles k with
    | some cached => ⟨cached, s, 0, [], [], 0⟩
    | none =>
      let reconciled : Profile := ⟨reconcile p.data s.template⟩
      ⟨reconciled,
       { s with loadedProfiles := Map.set s.loadedProfiles k reconciled },
       1, [], [], 1⟩
  | retryTime, n + 1, p =>
    match Map.get s.loadedProfiles k with
    | some cached => ⟨cached, s, 0, [], [], 0⟩
    | none =>
      let rt : ℚ := match retryTime with
        | none => 1/10
        | some r => 2 * r
      let w : List (String × ℚ) := if rt > 1/2 then [(k, rt)] else []
      let rest := ProfileManager.load s k (some rt) n p
      ⟨rest.res, rest.state, rest.storeCalls + 1, rt :: rest.sleeps,
       w ++ rest.warns, rest.reconciles⟩

/-- The store's response to `ViewProfileAsync`. -/
inductive StoreView where
  | found (p : Profile)
  | notFound
deriving DecidableEq, Repr

/-- What a `view` call does for its caller: return a value (possibly absent,
the source returning `undefined`), or suspend on an existing pending
operation's signal, blocked until that signal fires. -/
inductive ViewRes where
  | ret (p : Option Profile)
  | waiting
deriving DecidableEq, Repr

/-- Outcome of `view`: the caller-visible result, the successor state, the
number of store calls issued, and the values fired on the pending
operation's signal (what waiting callers receive). -/
structure ViewOut where
  res : ViewRes
  state : ManagerState
  storeCalls : Nat
  fired : List Profile
deriving DecidableEq, Repr

/-- `view(profileKey)`. Mirrors the source: loaded cache first, then view
cache, then the pending map (suspending on the existing signal, with no
store call), else it registers a pending operation of kind `view` and calls
the store's non-locking view. On a found record it fires the signal,
deletes the pending entry and caches the record into `viewedProfiles`; on
not-found it fires nothing, deletes nothing, and returns `undefined`. -/
def ProfileManager.view (s : ManagerState) (k : String) (store : StoreView) :
    ViewOut :=
  match Map.get s.loadedProfiles k with
  | some cached => ⟨.ret (some cached), s, 0, []⟩
  | none =>
    match Map.get s.viewedProfiles k with
    | some viewCached => ⟨.ret (some viewCached), s, 0, []⟩
    | none =>
      match Map.get s.awaitingOperations k with
      | some _ => ⟨.waiting, s, 0, []⟩
      | none =>
        let s1 := { s with
          awaitingOperations := Map.set s.awaitingOperations k OpKind.view }
        match store with
        | .found p =>
          ⟨.ret (some p),
           { s1 with
             awaitingOperations := (Map.del s1.awaitingOperations k).1,
             viewedProfiles := Map.set s1.viewedProfiles k p },
           1, [p]⟩
        | .notFound => ⟨.ret none, s1, 1, []⟩

/-- Outcome of `unload`: the returned boolean, the successor state, and the
number of `Release()` calls issued to the store. -/
structure UnloadOut where
  success : Bool
  state : ManagerState
  released : Nat
deriving DecidableEq, Repr

/-- `unload(profileKey)`: release the record if one is loaded, then delete
the map entry; the result is the deletion's report. -/
def ProfileManager.unload (s : ManagerState) (k : String) : UnloadOut :=
  let profile := Map.get s.loadedProfiles k
  let released := if profile.isSome then 1 else 0
  let d := Map.del s.loadedProfiles k
  ⟨d.2, { s with loadedProfiles := d.1 }, released⟩

/-- Outcome of `save`: the returned boolean, the successor state and the
number of `Save()` calls issued to the store. -/
structure SaveOut where
  success : Bool
  state : ManagerState
  saved : Nat
deriving DecidableEq, Repr

/-- `save(profileKey)`: persist the loaded record if present. -/
def ProfileManager.save (s : ManagerState) (k : String) : SaveOut :=
  match Map.get s.loadedProfiles k with
  | some _ => ⟨true, s, 1⟩
  | none => ⟨false, s, 0⟩

/-- The template `{coins: 0, level: 1}` of the spec's scenarios. -/
def sampleTemplate : Payload := [("coins", 0), ("level", 1)]

/-- The stored payload `{coins: 50}` of the spec's scenario. -/
def pCoins : Profile := ⟨[("coins", 50)]⟩

/-- The reconciled record `{coins: 50, level: 1}` of the spec's scenario. -/
def pRec : Profile := ⟨[("coins", 50), ("level", 1)]⟩

/-- A freshly constructed manager over the sample template. -/
def freshManager : ManagerState := ProfileManager.mk "PlayerData" sampleTemplate

/-- A state whose key `"K"` is simultaneously loaded, view-cached and
pending, to exercise precedence. -/
def sFull : ManagerState :=
  ⟨"PlayerData", sampleTemplate, [("K", pRec)], [("K", pCoins)],
   [("K", OpKind.load)]⟩

/-- A state whose key `"K"` is only view-cached, not loaded. -/
def sViewOnly : ManagerState :=
  ⟨"PlayerData", sampleTemplate, [], [("K", pCoins)], []⟩

/-- Well-formed key list: no duplicate keys (as JS `Map` guarantees). -/
def Map.WFkeys {α : Type} (m : Map α) : Prop := (m.map Prod.fst).Nodup

/-- All three maps of a state have unique keys. -/
def WF (s : ManagerState) : Prop :=
  Map.WFkeys s.loadedProfiles ∧ Map.WFkeys s.viewedProfiles ∧
    Map.WFkeys s.awaitingOperations

/-- States reachable from a freshly constructed manager by any sequence of
operations (with arbitrary store responses). -/
inductive Reachable : ManagerState → Prop where
  | init (name : String) (template : Payload) :
      Reachable (ProfileManager.mk name template)
  | step_load (s : ManagerState) (k : String) (rt : Option ℚ) (fails : Nat)
      (p : Profile) : Reachable s →
      Reachable (ProfileManager.load s k rt fails p).state
  | step_view (s : ManagerState) (k : String) (store : StoreView) :
      Reachable s → Reachable (ProfileManager.view s k store).state
  | step_unload (s : ManagerState) (k : String) :
      Reachable s → Reachable (ProfileManager.unload s k).state
  | step_save (s : ManagerState) (k : String) :
      Reachable s → Reachable (ProfileManager.save s k).state


/-! ## Basic facts about the map model -/

theorem Map.get_eraseKey {α : Type} (m : Map α) (k k' : String) :
    Map.get (Map.eraseKey m k) k' = if k' = k then none else Map.get m k' := by
  induction m with
  | nil => simp [Map.get, Map.eraseKey]
  | cons e rest ih =>
    rw [Map.eraseKey]
    by_cases he : e.1 = k
    · rw [if_pos he, ih]
      by_cases h' : k' = k
      · simp [h']
      · have hek : ¬(e.1 = k') := fun h2 => h' (h2.symm.trans he)
        simp [Map.get, h', hek]
    · rw [if_neg he]
      by_cases h2 : e.1 = k'
      · have h' : ¬(k' = k) := fun hk => he (h2.trans hk)
        simp [Map.get, h2, h']
      · simp [Map.get, h2, ih]

theorem Map.get_set_self {α : Type} (m : Map α) (k : String) (v : α) :
    Map.get (Map.set m k v) k = some v := by
  simp [Map.set, Map.get]

theorem Map.get_set_other {α : Type} (m : Map α) (k k' : String) (v : α)
    (h : k' ≠ k) :
    Map.get (Map.set m k v) k' = Map.get m k' := by
  have hk : ¬((k, v).1 = k') := by simpa using Ne.symm h
  rw [Map.set, Map.get, if_neg hk, Map.get_eraseKey, if_neg h]

theorem Map.get_del_self {α : Type} (m : Map α) (k : String) :
    Map.get (Map.del m k).1 k = none := by
  simp [Map.del, Map.get_eraseKey]

theorem Map.get_del_other {α : Type} (m : Map α) (k k' : String)
    (h : k' ≠ k) :
    Map.get (Map.del m k).1 k' = Map.get m k' := by
  simp [Map.del, Map.get_eraseKey, h]

theorem Map.get_none_mem {α : Type} (m : Map α) (k : String)
    (h : Map.get m k = none) : ∀ e ∈ m, ¬(e.1 = k) := by
  induction m with
  | nil => simp
  | cons e rest ih =>
    by_cases he : e.1 = k
    · rw [Map.get, if_pos he] at h
      exact absurd h (by simp)
    · rw [Map.get, if_neg he] at h
      intro f hf
      rcases List.mem_cons.mp hf with hf | hf
      · rw [hf]; exact he
      · exact ih h f hf

theorem Map.hasKey_get {α : Type} (m : Map α) (k : String) :
    Map.hasKey m k = (Map.get m k).isSome := by
  induction m with
  | nil => simp [Map.get, Map.hasKey]
  | cons e rest ih =>
    rw [Map.hasKey, Map.get]
    by_cases he : e.1 = k
    · simp [he]
    · simp [he, ih]

theorem Map.eraseKey_of_get_none {α : Type} (m : Map α) (k : String)
    (h : Map.get m k = none) : Map.eraseKey m k = m := by
  induction m with
  | nil => rfl
  | cons e rest ih =>
    by_cases he : e.1 = k
    · rw [Map.get, if_pos he] at h
      exact absurd h (by simp)
    · rw [Map.get, if_neg he] at h
      rw [Map.eraseKey, if_neg he, ih h]

theorem Map.del_none_eq {α : Type} (m : Map α) (k : String)
    (h : Map.get m k = none) : (Map.del m k).1 = m :=
  Map.eraseKey_of_get_none m k h

theorem Map.del_snd_true {α : Type} (m : Map α) (k : String) (v : α)
    (h : Map.get m k = some v) : (Map.del m k).2 = true := by
  simp [Map.del, Map.hasKey_get, h]

theorem Map.del_snd_false {α : Type} (m : Map α) (k : String)
    (h : Map.get m k = none) : (Map.del m k).2 = false := by
  simp [Map.del, Map.hasKey_get, h]

theorem Map.wf_nil {α : Type} : Map.WFkeys ([] : Map α) := by
  simp [Map.WFkeys]

theorem Map.eraseKey_sublist {α : Type} (m : Map α) (k : String) :
    List.Sublist (Map.eraseKey m k) m := by
  induction m with
  | nil => simp [Map.eraseKey]
  | cons e rest ih =>
    rw [Map.eraseKey]
    by_cases he : e.1 = k
    · rw [if_pos he]
      exact List.Sublist.cons e ih
    · rw [if_neg he]
      exact List.Sublist.cons₂ e ih

theorem Map.wf_eraseKey {α : Type} (m : Map α) (k : String)
    (h : Map.WFkeys m) : Map.WFkeys (Map.eraseKey m k) :=
  List.Nodup.sublist (List.Sublist.map Prod.fst (Map.eraseKey_sublist m k)) h

theorem Map.wf_set {α : Type} (m : Map α) (k : String) (v : α)
    (h : Map.WFkeys m) : Map.WFkeys (Map.set m k v) := by
  refine List.nodup_cons.mpr ⟨?_, Map.wf_eraseKey m k h⟩
  intro hk
  rcases List.mem_map.mp hk with ⟨e, he, hek⟩
  have hg : Map.get (Map.eraseKey m k) k ≠ none := by
    intro hnone
    have := Map.get_none_mem _ k hnone e he
    exact this hek
  rw [Map.get_eraseKey, if_pos rfl] at hg
  exact hg rfl

theorem Map.wf_del {α : Type} (m : Map α) (k : String)
    (h : Map.WFkeys m) : Map.WFkeys (Map.del m k).1 :=
  Map.wf_eraseKey m k h

theorem Map.count_le_one {α : Type} (m : Map α) (k : String)
    (h : Map.WFkeys m) : (m.map Prod.fst).count k ≤ 1 :=
  List.nodup_iff_count_le_one.mp h k

/-! ## Well-formedness and reachability of manager states -/

theorem load_wf (s : ManagerState) (k : String) (rt : Option ℚ) (fails : Nat)
    (p : Profile) (h : WF s) : WF (ProfileManager.load s k rt fails p).state := by
  induction fails generalizing rt with
  | zero =>
    cases hc : Map.get s.loadedProfiles k with
    | some c => simpa [ProfileManager.load, hc] using h
    | none =>
      simp only [ProfileManager.load, hc]
      exact ⟨Map.wf_set _ _ _ h.1, h.2.1, h.2.2⟩
  | succ n ih =>
    cases hc : Map.get s.loadedProfiles k with
    | some c => simpa [ProfileManager.load, hc] using h
    | none => simpa [ProfileManager.load, hc] using ih _

theorem view_wf (s : ManagerState) (k : String) (store : StoreView)
    (h : WF s) : WF (ProfileManager.view s k store).state := by
  cases hl : Map.get s.loadedProfiles k with
  | some c => simpa [ProfileManager.view, hl] using h
  | none =>
    cases hv : Map.get s.viewedProfiles k with
    | some c => simpa [ProfileManager.view, hl, hv] using h
    | none =>
      cases ha : Map.get s.awaitingOperations k with
      | some op => simpa [ProfileManager.view, hl, hv, ha] using h
      | none =>
        cases store with
        | found p =>
          simp only [ProfileManager.view, hl, hv, ha]
          exact ⟨h.1, Map.wf_set _ _ _ h.2.1,
            Map.wf_del _ _ (Map.wf_set _ _ _ h.2.2)⟩
        | notFound =>
          simp only [ProfileManager.view, hl, hv, ha]
          exact ⟨h.1, h.2.1, Map.wf_set _ _ _ h.2.2⟩

theorem unload_wf (s : ManagerState) (k : String) (h : WF s) :
    WF (ProfileManager.unload s k).state :=
  ⟨Map.wf_del _ _ h.1, h.2.1, h.2.2⟩

theorem save_wf (s : ManagerState) (k : String) (h : WF s) :
    WF (ProfileManager.save s k).state := by
  cases hc : Map.get s.loadedProfiles k with
  | some c => simpa [ProfileManager.save, hc] using h
  | none => simpa [ProfileManager.save, hc] using h

theorem reachable_wf (s : ManagerState) (h : Reachable s) : WF s := by
  induction h with
  | init name template => exact ⟨Map.wf_nil, Map.wf_nil, Map.wf_nil⟩
  | step_load s k rt fails p _ ih => exact load_wf s k rt fails p ih
  | step_view s k store _ ih => exact view_wf s k store ih
  | step_unload s k _ ih => exact unload_wf s k ih
  | step_save s k _ ih => exact save_wf s k ih

/-! ## Behaviour of `load` -/

theorem load_cached (s : ManagerState) (k : String) (rt : Option ℚ)
    (fails : Nat) (p : Profile) (c : Profile)
    (hc : Map.get s.loadedProfiles k = some c) :
    ProfileManager.load s k rt fails p = ⟨c, s, 0, [], [], 0⟩ := by
  cases fails <;> simp [ProfileManager.load, hc]

theorem load_res (s : ManagerState) (k : String) (rt : Option ℚ)
    (fails : Nat) (p : Profile)
    (hc : Map.get s.loadedProfiles k = none) :
    (ProfileManager.load s k rt fails p).res = ⟨reconcile p.data s.template⟩ := by
  induction fails generalizing rt with
  | zero => simp [ProfileManager.load, hc]
  | succ n ih => simp [ProfileManager.load, hc, ih]

theorem load_state (s : ManagerState) (k : String) (rt : Option ℚ)
    (fails : Nat) (p : Profile)
    (hc : Map.get s.loadedProfiles k = none) :
    (ProfileManager.load s k rt fails p).state =
      { s with loadedProfiles :=
          Map.set s.loadedProfiles k ⟨reconcile p.data s.template⟩ } := by
  induction fails generalizing rt with
  | zero => simp [ProfileManager.load, hc]
  | succ n ih => simp [ProfileManager.load, hc, ih]

theorem load_storeCalls (s : ManagerState) (k : String) (rt : Option ℚ)
    (fails : Nat) (p : Profile)
    (hc : Map.get s.loadedProfiles k = none) :
    (ProfileManager.load s k rt fails p).storeCalls = fails + 1 := by
  induction fails generalizing rt with
  | zero => simp [ProfileManager.load, hc]
  | succ n ih => simp [ProfileManager.load, hc, ih]

theorem load_reconciles (s : ManagerState) (k : String) (rt : Option ℚ)
    (fails : Nat) (p : Profile)
    (hc : Map.get s.loadedProfiles k = none) :
    (ProfileManager.load s k rt fails p).reconciles = 1 := by
  induction fails generalizing rt with
  | zero => simp [ProfileManager.load, hc]
  | succ n ih => simp [ProfileManager.load, hc, ih]

theorem load_sleeps_some (s : ManagerState) (k : String) (fails : Nat)
    (p : Profile) (r : ℚ)
    (hc : Map.get s.loadedProfiles k = none) :
    (ProfileManager.load s k (some r) fails p).sleeps =
      (List.range fails).map (fun i => 2 ^ (i + 1) * r) := by
  induction fails generalizing r with
  | zero => simp [ProfileManager.load, hc]
  | succ n ih =>
    simp only [ProfileManager.load, hc]
    rw [ih (2 * r), List.range_succ_eq_map, List.map_cons, List.map_map]
    refine congrArg (fun l => _ :: l) ?_
    refine List.map_congr_left (fun i _ => ?_)
    simp only [Function.comp_apply, Nat.succ_eq_add_one]
    ring

theorem load_sleeps_none (s : ManagerState) (k : String) (fails : Nat)
    (p : Profile)
    (hc : Map.get s.loadedProfiles k = none) :
    (ProfileManager.load s k none fails p).sleeps =
      (List.range fails).map (fun i => (1/10 : ℚ) * 2 ^ i) := by
  cases fails with
  | zero => simp [ProfileManager.load, hc]
  | succ n =>
    simp only [ProfileManager.load, hc]
    rw [load_sleeps_some s k n p (1/10) hc, List.range_succ_eq_map,
      List.map_cons, List.map_map]
    refine congrArg₂ (fun a l => a :: l) (by norm_num) ?_
    refine List.map_congr_left (fun i _ => ?_)
    simp only [Function.comp_apply, Nat.succ_eq_add_one]
    ring

theorem load_warns (s : ManagerState) (k : String) (rt : Option ℚ)
    (fails : Nat) (p : Profile)
    (hc : Map.get s.loadedProfiles k = none) :
    (ProfileManager.load s k rt fails p).warns =
      (ProfileManager.load s k rt fails p).sleeps.filterMap
        (fun d => if (1/2 : ℚ) < d then some (k, d) else none) := by
  induction fails generalizing rt with
  | zero => simp [ProfileManager.load, hc]
  | succ n ih =>
    simp only [ProfileManager.load, hc]
    rw [List.filterMap_cons]
    by_cases hw : (1/2 : ℚ) <
        (match rt with | none => (1/10 : ℚ) | some r => 2 * r)
    · rw [if_pos hw]
      simp only [gt_iff_lt, hw, if_pos]
      rw [ih]
      simp
    · rw [if_neg hw]
      simp only [gt_iff_lt, hw, if_neg]
      rw [ih]
      simp

/-! ## Behaviour of `view` -/

theorem view_loaded (s : ManagerState) (k : String) (store : StoreView)
    (c : Profile) (hc : Map.get s.loadedProfiles k = some c) :
    ProfileManager.view s k store = ⟨.ret (some c), s, 0, []⟩ := by
  simp [ProfileManager.view, hc]

theorem view_viewed (s : ManagerState) (k : String) (store : StoreView)
    (v : Profile) (hl : Map.get s.loadedProfiles k = none)
    (hv : Map.get s.viewedProfiles k = some v) :
    ProfileManager.view s k store = ⟨.ret (some v), s, 0, []⟩ := by
  simp [ProfileManager.view, hl, hv]

theorem view_pending (s : ManagerState) (k : String) (store : StoreView)
    (op : OpKind) (hl : Map.get s.loadedProfiles k = none)
    (hv : Map.get s.viewedProfiles k = none)
    (ha : Map.get s.awaitingOperations k = some op) :
    ProfileManager.view s k store = ⟨.waiting, s, 0, []⟩ := by
  simp [ProfileManager.view, hl, hv, ha]

theorem view_found (s : ManagerState) (k : String) (p : Profile)
    (hl : Map.get s.loadedProfiles k = none)
    (hv : Map.get s.viewedProfiles k = none)
    (ha : Map.get s.awaitingOperations k = none) :
    ProfileManager.view s k (.found p) =
      ⟨.ret (some p),
       { s with
         viewedProfiles := Map.set s.viewedProfiles k p,
         awaitingOperations :=
           (Map.del (Map.set s.awaitingOperations k OpKind.view) k).1 },
       1, [p]⟩ := by
  simp [ProfileManager.view, hl, hv, ha]

theorem view_notFound (s : ManagerState) (k : String)
    (hl : Map.get s.loadedProfiles k = none)
    (hv : Map.get s.viewedProfiles k = none)
    (ha : Map.get s.awaitingOperations k = none) :
    ProfileManager.view s k .notFound =
      ⟨.ret none,
       { s with
         awaitingOperations := Map.set s.awaitingOperations k OpKind.view },
       1, []⟩ := by
  simp [ProfileManager.view, hl, hv, ha]

/-! ## Behaviour of `reconcile` -/

theorem Payload.get_append (p q : Payload) (f : String) :
    Payload.get (p ++ q) f =
      match Payload.get p f with
      | some v => some v
      | none => Payload.get q f := by
  induction p with
  | nil => simp [Payload.get]
  | cons e rest ih =>
    by_cases he : e.1 = f
    · simp [Payload.get, he]
    · simp [Payload.get, he, ih]

theorem Payload.get_filter_absent (pl t : Payload) (f : String)
    (h : Payload.get pl f = none) :
    Payload.get (t.filter (fun ft => (Payload.get pl ft.1).isNone)) f =
      Payload.get t f := by
  induction t with
  | nil => rfl
  | cons ft rest ih =>
    rw [List.filter_cons]
    by_cases hf : ft.1 = f
    · have hcond : (Payload.get pl ft.1).isNone = true := by
        rw [hf, h]
        rfl
      rw [if_pos hcond, Payload.get, if_pos hf, Payload.get, if_pos hf]
    · cases hpn : (Payload.get pl ft.1).isNone with
      | true =>
        rw [if_pos rfl, Payload.get, if_neg hf, ih, Payload.get, if_neg hf]
      | false =>
        rw [if_neg (by simp), ih, Payload.get, if_neg hf]

/-- Existing payload fields are never overwritten by reconciliation. -/
theorem reconcile_keeps (pl t : Payload) (f : String) (v : Int)
    (h : Payload.get pl f = some v) :
    Payload.get (reconcile pl t) f = some v := by
  rw [reconcile, Payload.get_append, h]

/-- A field absent from the payload is filled from the template. -/
theorem reconcile_fills (pl t : Payload) (f : String)
    (h : Payload.get pl f = none) :
    Payload.get (reconcile pl t) f = Payload.get t f := by
  rw [reconcile, Payload.get_append, h]
  exact Payload.get_filter_absent pl t f h

/-! ## The claims -/

/-- Claim C1 (code bug, evaluated at the failing input): when `view(k)` is
called with `k` neither loaded, viewed nor pending and the store reports
not-found, the claim says the pending entry is removed and every waiter
unblocks with an absent result. The code returns absent to the caller that
issued the store call, but it never fires the signal and never deletes the
pending entry: the entry for `"P3"` survives in `awaitingOperations`, and a
subsequent `view("P3")` suspends on the dead signal (result `waiting`, zero
store calls) instead of receiving an absent result. -/
theorem C1_view_notFound_divergence :
    (ProfileManager.view freshManager "P3" StoreView.notFound).res
      = ViewRes.ret none ∧
    (ProfileManager.view freshManager "P3" StoreView.notFound).storeCalls = 1 ∧
    (ProfileManager.view freshManager "P3" StoreView.notFound).fired = [] ∧
    Map.get (ProfileManager.view freshManager "P3"
        StoreView.notFound).state.awaitingOperations "P3" = some OpKind.view ∧
    (ProfileManager.view (ProfileManager.view freshManager "P3"
        StoreView.notFound).state "P3" StoreView.notFound).res
      = ViewRes.waiting ∧
    (ProfileManager.view (ProfileManager.view freshManager "P3"
        StoreView.notFound).state "P3" StoreView.notFound).storeCalls = 0 := by
  decide

/-- Claim C3: with no explicit retry-delay argument and `fails` consecutive
store failures, the sleeps are exactly `0.1 * 2^(N-1)` for the Nth retry,
the store is called `fails + 1` times however large `fails` is (no retry
cap), and a warning naming the key and the delay is emitted before a retry
exactly when that delay exceeds `0.5`. -/
theorem C3_retry_backoff (s : ManagerState) (k : String) (fails : Nat)
    (p : Profile) (hc : Map.get s.loadedProfiles k = none) :
    (ProfileManager.load s k none fails p).sleeps =
      (List.range fails).map (fun i => (1/10 : ℚ) * 2 ^ i) ∧
    (ProfileManager.load s k none fails p).storeCalls = fails + 1 ∧
    (ProfileManager.load s k none fails p).warns =
      (ProfileManager.load s k none fails p).sleeps.filterMap
        (fun d => if (1/2 : ℚ) < d then some (k, d) else none) :=
  ⟨load_sleeps_none s k fails p hc, load_storeCalls s k none fails p hc,
   load_warns s k none fails p hc⟩

/-- Witness for C3: four failures then success for `"P2"` sleeps
`0.1, 0.2, 0.4, 0.8`, calls the store five times, and warns exactly once —
for the `0.8` delay, which is the only one exceeding `0.5`. -/
theorem C3_retry_backoff_witness :
    Map.get freshManager.loadedProfiles "P2" = none ∧
    (ProfileManager.load freshManager "P2" none 4 pCoins).sleeps =
      [(1/10 : ℚ), 2/10, 4/10, 8/10] ∧
    (ProfileManager.load freshManager "P2" none 4 pCoins).storeCalls = 5 ∧
    (ProfileManager.load freshManager "P2" none 4 pCoins).warns =
      [("P2", (8/10 : ℚ))] := by
  have h := C3_retry_backoff freshManager "P2" 4 pCoins rfl
  refine ⟨rfl, ?_, ?_, ?_⟩
  · rw [h.1]
    norm_num [List.range_succ]
  · rw [h.2.1]
  · rw [h.2.2, h.1]
    norm_num [List.range_succ, List.filterMap_cons]

/-- Claim C4: two sequential `load(k)` calls with no intervening
`unload(k)` return the identical record, the second issues zero store
calls and leaves the state unchanged, and when the store succeeds on the
first attempt the two calls issue one store call in total. -/
theorem C4_load_cache (s : ManagerState) (k : String) (rt rt' : Option ℚ)
    (fails fails' : Nat) (p p' : Profile)
    (hc : Map.get s.loadedProfiles k = none) :
    (ProfileManager.load (ProfileManager.load s k rt fails p).state
        k rt' fails' p').res = (ProfileManager.load s k rt fails p).res ∧
    (ProfileManager.load (ProfileManager.load s k rt fails p).state
        k rt' fails' p').storeCalls = 0 ∧
    (ProfileManager.load (ProfileManager.load s k rt fails p).state
        k rt' fails' p').state = (ProfileManager.load s k rt fails p).state ∧
    (fails = 0 → (ProfileManager.load s k rt fails p).storeCalls = 1) := by
  have hres := load_res s k rt fails p hc
  have hstate := load_state s k rt fails p hc
  have hget : Map.get (ProfileManager.load s k rt fails p).state.loadedProfiles
      k = some (ProfileManager.load s k rt fails p).res := by
    rw [hstate, hres]
    exact Map.get_set_self _ _ _
  have h2 := load_cached (ProfileManager.load s k rt fails p).state k rt'
    fails' p' _ hget
  rw [h2]
  refine ⟨rfl, rfl, rfl, ?_⟩
  intro h0
  subst h0
  exact load_storeCalls s k rt 0 p hc

/-- Witness for C4 at key `"P1"` on a fresh manager with a first-attempt
store success. -/
theorem C4_load_cache_witness :
    Map.get freshManager.loadedProfiles "P1" = none ∧
    (ProfileManager.load (ProfileManager.load freshManager "P1" none 0
        pCoins).state "P1" none 0 pCoins).res
      = (ProfileManager.load freshManager "P1" none 0 pCoins).res ∧
    (ProfileManager.load (ProfileManager.load freshManager "P1" none 0
        pCoins).state "P1" none 0 pCoins).storeCalls = 0 ∧
    (ProfileManager.load freshManager "P1" none 0 pCoins).storeCalls = 1 := by
  have h := C4_load_cache freshManager "P1" none none 0 0 pCoins pCoins rfl
  exact ⟨rfl, h.1, h.2.1, h.2.2.2 rfl⟩

/-- Claim C5: when `k` is in the loaded cache, `view(k)` returns exactly the
loaded record with zero store calls and no state change, whatever the view
cache, the pending map and the store would have answered — the loaded cache
takes precedence. -/
theorem C5_loaded_precedence (s : ManagerState) (k : String)
    (store : StoreView) (c : Profile)
    (hc : Map.get s.loadedProfiles k = some c) :
    ProfileManager.view s k store = ⟨ViewRes.ret (some c), s, 0, []⟩ :=
  view_loaded s k store c hc

/-- Witness for C5 on a state whose key `"K"` is simultaneously loaded,
view-cached (with a different record) and pending: the loaded record wins. -/
theorem C5_loaded_precedence_witness :
    Map.get sFull.loadedProfiles "K" = some pRec ∧
    Map.get sFull.viewedProfiles "K" = some pCoins ∧
    Map.get sFull.awaitingOperations "K" = some OpKind.load ∧
    ProfileManager.view sFull "K" StoreView.notFound
      = ⟨ViewRes.ret (some pRec), sFull, 0, []⟩ := by
  have h := C5_loaded_precedence sFull "K" StoreView.notFound pRec (by decide)
  exact ⟨by decide, by decide, by decide, h⟩

/-- Claim C10: an explicit positive retry-delay argument `r` is doubled
before it is first used — the first sleep after a store failure lasts
`2 * r` — while the `0.1` base delay applies only when the argument is
omitted. -/
theorem C10_explicit_retry_doubled (s : ManagerState) (k : String) (r : ℚ)
    (n : Nat) (p : Profile) (_hr : 0 < r)
    (hc : Map.get s.loadedProfiles k = none) :
    (ProfileManager.load s k (some r) (n + 1) p).sleeps.head?
      = some (2 * r) ∧
    (ProfileManager.load s k none (n + 1) p).sleeps.head?
      = some ((1 : ℚ)/10) := by
  constructor <;> simp [ProfileManager.load, hc]

/-- Witness for C10 with `r = 0.3`: the first sleep is `0.6`, while the
omitted-argument call first sleeps `0.1`. -/
theorem C10_explicit_retry_doubled_witness :
    (0 : ℚ) < 3/10 ∧
    Map.get freshManager.loadedProfiles "P9" = none ∧
    (ProfileManager.load freshManager "P9" (some (3/10)) 1 pCoins).sleeps.head?
      = some ((3 : ℚ)/5) ∧
    (ProfileManager.load freshManager "P9" none 1 pCoins).sleeps.head?
      = some ((1 : ℚ)/10) := by
  have h := C10_explicit_retry_doubled freshManager "P9" (3/10) 0 pCoins
    (by norm_num) rfl
  refine ⟨by norm_num, rfl, ?_, h.2⟩
  rw [h.1]
  norm_num

/-- Claim C2: in every reachable state each key has at most one pending
operation entry and at most one loaded and one viewed cache entry; a
`view(k)` that finds a pending operation (and no cache hit) suspends on its
notification channel with zero store calls, and `view` issues a store call
only when no pending operation for `k` existed — the pending-map check and
the registration happen inside the same atomic step of the embedding, with
no suspension point between them. -/
theorem C2_single_pending_and_dedup (s : ManagerState) (k : String)
    (store : StoreView) (hr : Reachable s) :
    ((s.awaitingOperations.map Prod.fst).count k ≤ 1 ∧
     (s.loadedProfiles.map Prod.fst).count k ≤ 1 ∧
     (s.viewedProfiles.map Prod.fst).count k ≤ 1) ∧
    ((ProfileManager.view s k store).storeCalls ≠ 0 →
      Map.get s.awaitingOperations k = none) ∧
    (Map.get s.loadedProfiles k = none →
      Map.get s.viewedProfiles k = none →
      ∀ op, Map.get s.awaitingOperations k = some op →
        (ProfileManager.view s k store).res = ViewRes.waiting ∧
        (ProfileManager.view s k store).storeCalls = 0) := by
  have hwf := reachable_wf s hr
  refine ⟨⟨Map.count_le_one _ k hwf.2.2, Map.count_le_one _ k hwf.1,
    Map.count_le_one _ k hwf.2.1⟩, ?_, ?_⟩
  · intro hsc
    cases hl : Map.get s.loadedProfiles k with
    | some c =>
      rw [view_loaded s k store c hl] at hsc
      simp at hsc
    | none =>
      cases hv : Map.get s.viewedProfiles k with
      | some v =>
        rw [view_viewed s k store v hl hv] at hsc
        simp at hsc
      | none =>
        cases ha : Map.get s.awaitingOperations k with
        | some op =>
          rw [view_pending s k store op hl hv ha] at hsc
          simp at hsc
        | none => rfl
  · intro hl hv op ha
    rw [view_pending s k store op hl hv ha]
    exact ⟨rfl, rfl⟩

/-- Witness for C2: the reachable state left behind by a not-found `view`
has exactly one pending entry for `"P3"`, and a second `view("P3")` in that
state suspends on the pending channel with zero store calls. -/
theorem C2_single_pending_and_dedup_witness :
    (((ProfileManager.view freshManager "P3"
        StoreView.notFound).state.awaitingOperations.map Prod.fst).count "P3"
      ≤ 1) ∧
    (ProfileManager.view (ProfileManager.view freshManager "P3"
        StoreView.notFound).state "P3" StoreView.notFound).res
      = ViewRes.waiting ∧
    (ProfileManager.view (ProfileManager.view freshManager "P3"
        StoreView.notFound).state "P3" StoreView.notFound).storeCalls = 0 := by
  have h := C2_single_pending_and_dedup
    (ProfileManager.view freshManager "P3" StoreView.notFound).state "P3"
    StoreView.notFound
    (Reachable.step_view _ _ _ (Reachable.init "PlayerData" sampleTemplate))
  have hd := h.2.2 rfl rfl OpKind.view (by decide)
  exact ⟨h.1.1, hd.1, hd.2⟩

/-- Claim C6: a cached view never satisfies a `load` — whenever `k` is not
in the loaded cache (the view cache may well hold `k`), `load(k)` contacts
the store at least once; and after `unload(k)` removes `k` from the loaded
cache, a subsequent `load(k)` contacts the store again. -/
theorem C6_load_ignores_view_cache (s : ManagerState) (k : String)
    (rt rt' : Option ℚ) (fails fails' : Nat) (p p' : Profile)
    (hc : Map.get s.loadedProfiles k = none) :
    1 ≤ (ProfileManager.load s k rt fails p).storeCalls ∧
    Map.get (ProfileManager.unload
        (ProfileManager.load s k rt fails p).state k).state.loadedProfiles k
      = none ∧
    1 ≤ (ProfileManager.load (ProfileManager.unload
        (ProfileManager.load s k rt fails p).state k).state k rt' fails'
        p').storeCalls := by
  have h1 := load_storeCalls s k rt fails p hc
  have hdel : Map.get (ProfileManager.unload
      (ProfileManager.load s k rt fails p).state k).state.loadedProfiles k
      = none := Map.get_del_self _ k
  have h2 := load_storeCalls _ k rt' fails' p' hdel
  exact ⟨by omega, hdel, by omega⟩

/-- Witness for C6 on a state whose key `"K"` is view-cached but not
loaded: the load still contacts the store, and does so again after an
unload. -/
theorem C6_load_ignores_view_cache_witness :
    Map.get sViewOnly.loadedProfiles "K" = none ∧
    Map.get sViewOnly.viewedProfiles "K" = some pCoins ∧
    1 ≤ (ProfileManager.load sViewOnly "K" none 0 pCoins).storeCalls ∧
    1 ≤ (ProfileManager.load (ProfileManager.unload
        (ProfileManager.load sViewOnly "K" none 0 pCoins).state "K").state
        "K" none 0 pCoins).storeCalls := by
  have h := C6_load_ignores_view_cache sViewOnly "K" none none 0 0 pCoins
    pCoins rfl
  exact ⟨rfl, by decide, h.1, h.2.2⟩

/-- Claim C7: on a successful store load with `k` not cached,
reconciliation happens exactly once before the record is returned: every
template field absent from the payload is filled with the template default,
no existing payload field is overwritten, and the reconciled record is the
one cached under `loaded[k]`; on a loaded-cache hit no reconciliation is
performed. -/
theorem C7_reconcile_on_load (s : ManagerState) (k : String) (rt : Option ℚ)
    (fails : Nat) (p : Profile) :
    (Map.get s.loadedProfiles k = none →
      (ProfileManager.load s k rt fails p).reconciles = 1 ∧
      (ProfileManager.load s k rt fails p).res
        = ⟨reconcile p.data s.template⟩ ∧
      Map.get (ProfileManager.load s k rt fails p).state.loadedProfiles k
        = some (ProfileManager.load s k rt fails p).res ∧
      (∀ f v, Payload.get p.data f = some v →
        Payload.get (ProfileManager.load s k rt fails p).res.data f
          = some v) ∧
      (∀ f, Payload.get p.data f = none →
        Payload.get (ProfileManager.load s k rt fails p).res.data f
          = Payload.get s.template f)) ∧
    (∀ c, Map.get s.loadedProfiles k = some c →
      (ProfileManager.load s k rt fails p).reconciles = 0) := by
  constructor
  · intro hc
    have hres := load_res s k rt fails p hc
    have hstate := load_state s k rt fails p hc
    refine ⟨load_reconciles s k rt fails p hc, hres, ?_, ?_, ?_⟩
    · rw [hstate, hres]
      exact Map.get_set_self _ _ _
    · intro f v hf
      rw [hres]
      exact reconcile_keeps p.data s.template f v hf
    · intro f hf
      rw [hres]
      exact reconcile_fills p.data s.template f hf
  · intro c hc
    rw [load_cached s k rt fails p c hc]

/-- Witness for C7, the spec's scenario: template `{coins: 0, level: 1}`
and stored payload `{coins: 50}` yield the record `{coins: 50, level: 1}`,
reconciled once, cached under `loaded["P1"]`; a second load (cache hit)
performs no reconciliation. -/
theorem C7_reconcile_on_load_witness :
    Map.get freshManager.loadedProfiles "P1" = none ∧
    (ProfileManager.load freshManager "P1" none 0 pCoins).res = pRec ∧
    (ProfileManager.load freshManager "P1" none 0 pCoins).reconciles = 1 ∧
    Map.get (ProfileManager.load freshManager "P1" none 0
        pCoins).state.loadedProfiles "P1" = some pRec ∧
    (ProfileManager.load (ProfileManager.load freshManager "P1" none 0
        pCoins).state "P1" none 0 pCoins).reconciles = 0 := by
  have h := (C7_reconcile_on_load freshManager "P1" none 0 pCoins).1 rfl
  have h2 := (C7_reconcile_on_load (ProfileManager.load freshManager "P1"
    none 0 pCoins).state "P1" none 0 pCoins).2 pRec (by decide)
  exact ⟨rfl, by decide, h.1, by decide, h2⟩

/-- Claim C8: `unload(k)` with `k` loaded releases the record via the
store, removes it from the loaded cache and returns true; with `k` not
loaded it returns false, performs no store release, and leaves the whole
state — in particular the view cache and the pending map — unchanged. -/
theorem C8_unload_behavior (s : ManagerState) (k : String) :
    (∀ c, Map.get s.loadedProfiles k = some c →
      (ProfileManager.unload s k).success = true ∧
      (ProfileManager.unload s k).released = 1 ∧
      Map.get (ProfileManager.unload s k).state.loadedProfiles k = none) ∧
    (Map.get s.loadedProfiles k = none →
      (ProfileManager.unload s k).success = false ∧
      (ProfileManager.unload s k).released = 0 ∧
      (ProfileManager.unload s k).state = s) := by
  constructor
  · intro c hc
    refine ⟨?_, ?_, ?_⟩
    · show (Map.del s.loadedProfiles k).2 = true
      exact Map.del_snd_true s.loadedProfiles k c hc
    · show (if (Map.get s.loadedProfiles k).isSome then 1 else 0) = 1
      rw [hc]
      rfl
    · exact Map.get_del_self _ _
  · intro hc
    refine ⟨?_, ?_, ?_⟩
    · show (Map.del s.loadedProfiles k).2 = false
      exact Map.del_snd_false s.loadedProfiles k hc
    · show (if (Map.get s.loadedProfiles k).isSome then 1 else 0) = 0
      rw [hc]
      rfl
    · show ({ s with loadedProfiles := (Map.del s.loadedProfiles k).1 }
          : ManagerState) = s
      rw [Map.del_none_eq s.loadedProfiles k hc]

/-- Witness for C8: unloading the loaded key `"K"` of `sFull` releases once
and succeeds; unloading the merely view-cached key `"K"` of `sViewOnly`
returns false, releases nothing and leaves the state (hence its view cache)
untouched. -/
theorem C8_unload_behavior_witness :
    Map.get sFull.loadedProfiles "K" = some pRec ∧
    (ProfileManager.unload sFull "K").success = true ∧
    (ProfileManager.unload sFull "K").released = 1 ∧
    Map.get (ProfileManager.unload sFull "K").state.loadedProfiles "K"
      = none ∧
    Map.get sViewOnly.loadedProfiles "K" = none ∧
    (ProfileManager.unload sViewOnly "K").success = false ∧
    (ProfileManager.unload sViewOnly "K").released = 0 ∧
    (ProfileManager.unload sViewOnly "K").state = sViewOnly := by
  have h1 := (C8_unload_behavior sFull "K").1 pRec (by decide)
  have h2 := (C8_unload_behavior sViewOnly "K").2 rfl
  exact ⟨by decide, h1.1, h1.2.1, h1.2.2, rfl, h2.1, h2.2.1, h2.2.2⟩

/-- Claim C9: no operation ever removes a view-cache entry — `view`,
`load`, `unload` and `save` at any key all preserve an existing
`viewed[k]` snapshot — and a later `view(k)` with `k` not loaded returns
exactly that cached snapshot with zero store calls and no state change. -/
theorem C9_viewed_persistent (s : ManagerState) (k k' : String)
    (store store' : StoreView) (rt : Option ℚ) (fails : Nat) (p : Profile)
    (v : Profile) (hv : Map.get s.viewedProfiles k = some v) :
    Map.get (ProfileManager.view s k' store).state.viewedProfiles k
      = some v ∧
    (ProfileManager.load s k' rt fails p).state.viewedProfiles
      = s.viewedProfiles ∧
    (ProfileManager.unload s k').state.viewedProfiles = s.viewedProfiles ∧
    (ProfileManager.save s k').state.viewedProfiles = s.viewedProfiles ∧
    (Map.get s.loadedProfiles k = none →
      ProfileManager.view s k store' = ⟨ViewRes.ret (some v), s, 0, []⟩) := by
  refine ⟨?_, ?_, rfl, ?_, ?_⟩
  · cases hl : Map.get s.loadedProfiles k' with
    | some c =>
      rw [view_loaded s k' store c hl]
      exact hv
    | none =>
      cases hv' : Map.get s.viewedProfiles k' with
      | some w =>
        rw [view_viewed s k' store w hl hv']
        exact hv
      | none =>
        cases ha : Map.get s.awaitingOperations k' with
        | some op =>
          rw [view_pending s k' store op hl hv' ha]
          exact hv
        | none =>
          cases store with
          | found q =>
            rw [view_found s k' q hl hv' ha]
            by_cases hk : k = k'
            · rw [hk, hv'] at hv
              cases hv
            · show Map.get (Map.set s.viewedProfiles k' q) k = some v
              rw [Map.get_set_other s.viewedProfiles k' k q hk]
              exact hv
          | notFound =>
            rw [view_notFound s k' hl hv' ha]
            exact hv
  · cases hl : Map.get s.loadedProfiles k' with
    | some c => rw [load_cached s k' rt fails p c hl]
    | none => rw [load_state s k' rt fails p hl]
  · cases hl : Map.get s.loadedProfiles k' with
    | some c => simp [ProfileManager.save, hl]
    | none => simp [ProfileManager.save, hl]
  · intro hl
    exact view_viewed s k store' v hl hv

/-- Witness for C9: the view-cached snapshot of `"K"` in `sViewOnly`
survives a `view` of another key, an `unload` and a `save`, and a later
`view("K")` returns it with no store call. -/
theorem C9_viewed_persistent_witness :
    Map.get sViewOnly.viewedProfiles "K" = some pCoins ∧
    Map.get (ProfileManager.view sViewOnly "K2"
        (StoreView.found pRec)).state.viewedProfiles "K" = some pCoins ∧
    (ProfileManager.unload sViewOnly "K2").state.viewedProfiles
      = sViewOnly.viewedProfiles ∧
    (ProfileManager.save sViewOnly "K2").state.viewedProfiles
      = sViewOnly.viewedProfiles ∧
    ProfileManager.view sViewOnly "K" StoreView.notFound
      = ⟨ViewRes.ret (some pCoins), sViewOnly, 0, []⟩ := by
  have h := C9_viewed_persistent sViewOnly "K" "K2" (StoreView.found pRec)
    StoreView.notFound none 0 pRec pCoins (by decide)
  exact ⟨by decide, h.1, h.2.2.1, h.2.2.2.1, h.2.2.2.2 rfl⟩

end VRLDK
